import Mathlib

/-!
Formal model of the FII detail store (`parsers/fiidb.go` of the rapina
repository): a single-table data-access layer that parses a JSON payload
describing a Brazilian real-estate investment fund (FII), stores the triple
`(cnpj, acronym, trading_code)` with insert-or-ignore semantics keyed on the
CNPJ, and serves two lookups by a 4-byte acronym or a 6-byte trading code.

The relational store behind the `*sql.DB` handle is modelled as an explicit
state (`DB`): a flag recording whether the `fii_details` table exists, the
list of its rows in insertion order, and an optional injected storage-engine
fault that makes `Exec` and row scans fail with that error.  JSON decoding is
abstracted as its outcome (`Payload`): either a decode error with its cause or
the decoded `FIIDetails` record.
-/

namespace Fiidb

/-- Go `unicode.IsSpace` restricted to the characters it accepts (Latin-1
range): space, tab, newline, vertical tab, form feed, carriage return,
next line (U+0085) and non-breaking space (U+00A0). -/
def goIsSpace (c : Char) : Bool :=
  c = ' ' || c = '\t' || c = '\n' || c = '\x0b' || c = '\x0c' || c = '\r' ||
  c = '\u0085' || c = '\u00A0'

/-- Go `strings.TrimSpace`: drop leading and trailing whitespace. -/
def TrimSpace (s : String) : String :=
  ⟨List.reverse (List.dropWhile goIsSpace
    (List.reverse (List.dropWhile goIsSpace s.data)))⟩

/-- Go `len` on a string counts UTF-8 bytes, not characters. -/
def goLen (s : String) : Nat :=
  (s.data.map Char.utf8Size).sum

/-- The nested `detailFund` struct of `FIIDetails` (fiidb.go lines 32-57).
Defaults are the Go zero values; the two `interface\x7b\x7d` fields
(`codesOther`, `segment`) are modelled as `Option String` with zero value
`none` (Go `nil`). -/
structure DetailFund where
  acronym : String := ""
  tradingName : String := ""
  tradingCode : String := ""
  tradingCodeOthers : String := ""
  cnpj : String := ""
  classification : String := ""
  webSite : String := ""
  fundAddress : String := ""
  fundPhoneNumberDDD : String := ""
  fundPhoneNumber : String := ""
  fundPhoneNumberFax : String := ""
  positionManager : String := ""
  managerName : String := ""
  companyAddress : String := ""
  companyPhoneNumberDDD : String := ""
  companyPhoneNumber : String := ""
  companyPhoneNumberFax : String := ""
  companyEmail : String := ""
  companyName : String := ""
  quotaCount : String := ""
  quotaDateApproved : String := ""
  codes : List String := []
  codesOther : Option String := none
  segment : Option String := none
deriving DecidableEq

/-- The nested `shareHolder` struct of `FIIDetails` (fiidb.go lines 58-65). -/
structure ShareHolder where
  shareHolderName : String := ""
  shareHolderAddress : String := ""
  shareHolderPhoneNumberDDD : String := ""
  shareHolderPhoneNumber : String := ""
  shareHolderFaxNumber : String := ""
  shareHolderEmail : String := ""
deriving DecidableEq

/-- Go `FIIDetails` (fiidb.go lines 31-66): the full external record shape. -/
structure FIIDetails where
  detailFund : DetailFund := {}
  shareHolder : ShareHolder := {}
deriving DecidableEq

/-- One row of the `fii_details` table: `(cnpj, acronym, trading_code)`. -/
structure FIIRow where
  cnpj : String
  acronym : String
  trading_code : String
deriving DecidableEq

/-- State of the relational store behind the `*sql.DB` handle.
`hasFiiDetails` records whether the `fii_details` table exists,
`fii_details` its rows in insertion order, and `fault` an injected
storage-engine failure: when set, `Exec` and row scans return that error. -/
structure DB where
  hasFiiDetails : Bool
  fii_details : List FIIRow
  fault : Option String
deriving DecidableEq

/-- Go `FIIStore` (fiidb.go lines 18-20): wraps a possibly-nil `*sql.DB`. -/
structure FIIStore where
  db : Option DB
deriving DecidableEq

/-- Go `NewFIIStore` (fiidb.go lines 23-28): wraps the handle, accepting a
nil db when caching is not needed, with no other side effects. -/
def NewFIIStore (db : Option DB) : FIIStore :=
  ⟨db⟩

/-- The errors the three operations can return.  `dbUnset` is `ErrDBUnset`
("database not set"), `jsonUnmarshal` is `errors.Wrap(err, "json unmarshal")`,
`wrongCNPJ` is `fmt.Errorf("wrong CNPJ: %s", ...)`, `invalidCode` is
`fmt.Errorf("invalid code \x27%s\x27", ...)`, `noRows` is `sql.ErrNoRows`
(the driver's not-found condition), and `storage` is any other
storage-engine error, carried as-is. -/
inductive Err where
  | dbUnset
  | jsonUnmarshal (cause : String)
  | wrongCNPJ (cnpj : String)
  | invalidCode (code : String)
  | noRows
  | storage (msg : String)
deriving DecidableEq

/-- The message each error renders to (`Error()` in Go). -/
def Err.message : Err → String
  | .dbUnset => "database not set"
  | .jsonUnmarshal cause => "json unmarshal: " ++ cause
  | .wrongCNPJ c => "wrong CNPJ: " ++ c
  | .invalidCode c => "invalid code \x27" ++ c ++ "\x27"
  | .noRows => "sql: no rows in result set"
  | .storage msg => msg

instance {ε α : Type} [DecidableEq ε] [DecidableEq α] :
    DecidableEq (Except ε α) := fun x y =>
  match x, y with
  | .ok a, .ok b =>
    if h : a = b then .isTrue (by rw [h])
    else .isFalse (fun hc => h (Except.ok.inj hc))
  | .ok _, .error _ => .isFalse (fun hc => Except.noConfusion hc)
  | .error _, .ok _ => .isFalse (fun hc => Except.noConfusion hc)
  | .error e, .error f =>
    if h : e = f then .isTrue (by rw [h])
    else .isFalse (fun hc => h (Except.error.inj hc))

/-- Modelled from the spec: `hasTable` (repository code not under src/)
reports whether the named table exists in the store. -/
def hasTable (db : DB) ( tableName : String) : Bool :=
  if tableName = "fii_details" then db.hasFiiDetails else false

/-- Modelled from the spec: `createTable` (repository code not under src/)
creates the named table with the minimal schema
`(cnpj, acronym, trading_code)` and CNPJ uniqueness (spec sections 4 and 6);
a freshly created table holds no rows.  Creation is modelled as always
succeeding. -/
def createTable (db : DB) ( tableName : String) : DB :=
  if tableName = "fii_details" then
    { db with hasFiiDetails := true, fii_details := [] }
  else db

/-- `db.Exec` of `INSERT OR IGNORE INTO fii_details (cnpj, acronym,
trading_code) VALUES (?,?,?)`: with CNPJ uniqueness enforced by the schema,
a row whose cnpj is already present is ignored (no update, no error);
otherwise the row is appended.  A set `fault` makes `Exec` return that
storage error; a missing table is a storage error as well. -/
def execInsertOrIgnore (db : DB) (r : FIIRow) : Except Err Unit × DB :=
  match db.fault with
  | some msg => (.error (.storage msg), db)
  | none =>
    if db.hasFiiDetails = false then
      (.error (.storage "no such table: fii_details"), db)
    else if db.fii_details.any (fun row => row.cnpj = r.cnpj) then
      (.ok (), db)
    else
      (.ok (), { db with fii_details := db.fii_details ++ [r] })

/-- Go `trimFIIDetails` (fiidb.go lines 154-158): strip surrounding
whitespace from CNPJ, acronym and trading code. -/
def trimFIIDetails (f : FIIDetails) : FIIDetails :=
  { f with detailFund := { f.detailFund with
      cnpj := TrimSpace f.detailFund.cnpj
      acronym := TrimSpace f.detailFund.acronym
      tradingCode := TrimSpace f.detailFund.tradingCode } }

/-- Outcome of `json.Unmarshal` on the raw byte stream: either a decode
error with its cause, or the decoded `FIIDetails` (JSON fields absent from
the payload decode to the Go zero values, which are the structure
defaults). -/
inductive Payload where
  | malformed (cause : String)
  | wellFormed (details : FIIDetails)
deriving DecidableEq

/-- Go `StoreFIIDetails` (fiidb.go lines 72-99): fail on a nil handle,
ensure the `fii_details` table exists, unmarshal, trim, reject an empty
CNPJ, then insert-or-ignore the trimmed triple.  Returns the error result
together with the updated store. -/
def StoreFIIDetails (fii : FIIStore) (stream : Payload) :
    Except Err Unit × FIIStore :=
  match fii.db with
  | none => (.error .dbUnset, fii)
  | some db0 =>
    let db := if hasTable db0 "fii_details" then db0
              else createTable db0 "fii_details"
    match stream with
    | .malformed cause => (.error (.jsonUnmarshal cause), ⟨some db⟩)
    | .wellFormed details =>
      let x := (trimFIIDetails details).detailFund
      if x.cnpj = "" then (.error (.wrongCNPJ x.cnpj), ⟨some db⟩)
      else
        let out := execInsertOrIgnore db ⟨x.cnpj, x.acronym, x.tradingCode⟩
        (out.1, ⟨some out.2⟩)

/-- `db.QueryRow(query, code)` followed by `row.Scan`: the first row whose
key column equals `code`; `Err.noRows` (Go `sql.ErrNoRows`) when no row
matches; the `fault` error when the engine is faulted; a "no such table"
error when the table was never created. -/
def queryRowScan (db : DB) (key : FIIRow → String) (code : String) :
    Except Err FIIRow :=
  match db.fault with
  | some msg => .error (.storage msg)
  | none =>
    if db.hasFiiDetails = false then
      .error (.storage "no such table: fii_details")
    else
      match db.fii_details.find? (fun r => key r = code) with
      | some r => .ok r
      | none => .error .noRows

/-- Go `CNPJ` (fiidb.go lines 101-123): resolve a CNPJ from a 4-byte
acronym or a 6-byte trading code; any other length is an invalid code.
`sql.ErrNoRows` is absorbed: the zero-valued `cnpj` (the empty string) is
returned with no error; other scan errors propagate. -/
def CNPJ (fii : FIIStore) (code : String) : Except Err String :=
  match fii.db with
  | none => .error .dbUnset
  | some db =>
    let key? : Option (FIIRow → String) :=
      if goLen code = 4 then some (fun r => r.acronym)
      else if goLen code = 6 then some (fun r => r.trading_code)
      else none
    match key? with
    | none => .error (.invalidCode code)
    | some key =>
      match queryRowScan db key code with
      | .ok r => .ok r.cnpj
      | .error .noRows => .ok ""
      | .error e => .error e

/-- The record `SelectFIIDetails` builds on success: `var fiiDetail
FIIDetails` (all fields at Go zero values) with only CNPJ, acronym and
trading code filled in from the scanned row (fiidb.go lines 146-151). -/
def mkPartialDetails (r : FIIRow) : FIIDetails :=
  { detailFund := { cnpj := r.cnpj, acronym := r.acronym,
                    tradingCode := r.trading_code } }

/-- Go `SelectFIIDetails` (fiidb.go lines 125-152): same dispatch as `CNPJ`,
but every scan error propagates, `sql.ErrNoRows` included.  `Except.ok`
models a non-nil `*FIIDetails`. -/
def SelectFIIDetails (fii : FIIStore) (code : String) :
    Except Err FIIDetails :=
  match fii.db with
  | none => .error .dbUnset
  | some db =>
    let key? : Option (FIIRow → String) :=
      if goLen code = 4 then some (fun r => r.acronym)
      else if goLen code = 6 then some (fun r => r.trading_code)
      else none
    match key? with
    | none => .error (.invalidCode code)
    | some key =>
      match queryRowScan db key code with
      | .ok r => .ok (mkPartialDetails r)
      | .error e => .error e

/-- Rows of the ensured table: the existing rows when the table exists,
none when `StoreFIIDetails` has just created it. -/
def ensuredRows (d : DB) : List FIIRow :=
  if d.hasFiiDetails then d.fii_details else []

/-- The trimmed triple `StoreFIIDetails` inserts for a decoded payload. -/
def trimmedRow (p : FIIDetails) : FIIRow :=
  ⟨TrimSpace p.detailFund.cnpj, TrimSpace p.detailFund.acronym,
   TrimSpace p.detailFund.tradingCode⟩

/-- Number of stored rows carrying a given CNPJ. -/
def countCnpj (rows : List FIIRow) (c : String) : Nat :=
  rows.countP (fun r => r.cnpj = c)

/-- The concrete payload of the round-trip example: CNPJ
"12.345.678/0001-90", acronym "ABCD", trading code "ABCD11". -/
def pCanon : FIIDetails :=
  { detailFund := { cnpj := "12.345.678/0001-90", acronym := "ABCD",
                    tradingCode := "ABCD11" } }

/-- The same payload with surrounding whitespace on all three fields. -/
def pPadded : FIIDetails :=
  { detailFund := { cnpj := " 12.345.678/0001-90 ", acronym := " ABCD ",
                    tradingCode := " ABCD11 " } }

/-- Effect of the insert-or-ignore statement on the row list. -/
def insertRows (R : List FIIRow) (r : FIIRow) : List FIIRow :=
  if R.any (fun row => row.cnpj = r.cnpj) then R else R ++ [r]

theorem mem_insertRows (R : List FIIRow) (r x : FIIRow) (hx : x ∈ R) :
    x ∈ insertRows R r := by
  unfold insertRows
  split
  · exact hx
  · exact List.mem_append_left _ hx

theorem insertRows_any_self (R : List FIIRow) (r : FIIRow) :
    (insertRows R r).any (fun x => x.cnpj = r.cnpj) = true := by
  unfold insertRows
  split
  · assumption
  · simp

theorem insertRows_eq_of_any (R : List FIIRow) (r : FIIRow)
    (h : R.any (fun x => x.cnpj = r.cnpj) = true) : insertRows R r = R := by
  unfold insertRows
  exact if_pos h

theorem countCnpj_insertRows (R : List FIIRow) (r : FIIRow)
    (h : countCnpj R r.cnpj ≤ 1) : countCnpj (insertRows R r) r.cnpj = 1 := by
  unfold insertRows countCnpj
  split
  · rename_i hany
    have hpos : 0 < R.countP (fun x => decide (x.cnpj = r.cnpj)) := by
      rw [List.countP_pos_iff]
      simpa using hany
    have hle : R.countP (fun x => decide (x.cnpj = r.cnpj)) ≤ 1 := h
    omega
  · rename_i hany
    have h0 : R.countP (fun x => decide (x.cnpj = r.cnpj)) = 0 := by
      rw [List.countP_eq_zero]
      intro a ha hdec
      apply hany
      rw [List.any_eq_true]
      exact ⟨a, ha, hdec⟩
    rw [List.countP_append, h0]
    simp

/-- Characterisation of a successful `StoreFIIDetails` call on a set,
unfaulted handle with a decodable payload whose trimmed CNPJ is non-empty:
it succeeds and the table holds the ensured rows with the trimmed triple
inserted-or-ignored. -/
theorem store_wellFormed_eq (d : DB) (p : FIIDetails)
    (hfault : d.fault = none)
    (hcnpj : TrimSpace p.detailFund.cnpj ≠ "") :
    StoreFIIDetails ⟨some d⟩ (.wellFormed p) =
      (.ok (), ⟨some ⟨true, insertRows (ensuredRows d) (trimmedRow p),
        none⟩⟩) := by
  obtain ⟨ht, rows, flt⟩ := d
  have hflt : flt = none := hfault
  subst hflt
  cases ht
  · simp [StoreFIIDetails, hasTable, createTable, execInsertOrIgnore,
      trimFIIDetails, ensuredRows, trimmedRow, insertRows, hcnpj]
  · by_cases hany : rows.any (fun r => r.cnpj = TrimSpace p.detailFund.cnpj)
    · simp [StoreFIIDetails, hasTable, createTable, execInsertOrIgnore,
        trimFIIDetails, ensuredRows, trimmedRow, insertRows, hcnpj, hany]
    · simp [StoreFIIDetails, hasTable, createTable, execInsertOrIgnore,
        trimFIIDetails, ensuredRows, trimmedRow, insertRows, hcnpj, hany]

/-- C2: for every decodable payload whose CNPJ is empty or whitespace-only
after trimming, `StoreFIIDetails` returns the descriptive wrong-CNPJ error
(message "wrong CNPJ: " followed by the empty trimmed value) and performs
no insert: the stored rows are unchanged by the call. -/
theorem storeFIIDetails_empty_cnpj_rejected (d : DB) (p : FIIDetails)
    (hwf : d.hasFiiDetails = false → d.fii_details = [])
    (hcnpj : TrimSpace p.detailFund.cnpj = "") :
    (StoreFIIDetails ⟨some d⟩ (.wellFormed p)).1 = .error (.wrongCNPJ "") ∧
    Err.message (.wrongCNPJ "") = "wrong CNPJ: " ∧
    ∃ d', (StoreFIIDetails ⟨some d⟩ (.wellFormed p)).2.db = some d' ∧
      d'.fii_details = d.fii_details := by
  obtain ⟨ht, rows, flt⟩ := d
  cases ht
  · have hrows : rows = [] := hwf rfl
    subst hrows
    simp [StoreFIIDetails, hasTable, createTable, trimFIIDetails, hcnpj,
      Err.message]
  · simp [StoreFIIDetails, hasTable, createTable, trimFIIDetails, hcnpj,
      Err.message]

/-- C2 witness: a concrete whitespace-only CNPJ is rejected with the
wrong-CNPJ error and the single pre-existing row is untouched. -/
theorem storeFIIDetails_empty_cnpj_rejected_witness :
    (StoreFIIDetails ⟨some ⟨true, [⟨"c", "AAAA", "AAAA11"⟩], none⟩⟩
        (.wellFormed { detailFund := { cnpj := "   " } })).1 =
      .error (.wrongCNPJ "") ∧
    Err.message (.wrongCNPJ "") = "wrong CNPJ: " ∧
    ∃ d', (StoreFIIDetails ⟨some ⟨true, [⟨"c", "AAAA", "AAAA11"⟩], none⟩⟩
        (.wellFormed { detailFund := { cnpj := "   " } })).2.db = some d' ∧
      d'.fii_details = [⟨"c", "AAAA", "AAAA11"⟩] :=
  storeFIIDetails_empty_cnpj_rejected ⟨true, [⟨"c", "AAAA", "AAAA11"⟩], none⟩
    { detailFund := { cnpj := "   " } } (by intro h; cases h) (by decide)

/-- C6: for every code whose byte length is neither 4 nor 6, both `CNPJ`
and `SelectFIIDetails` return the invalid-code error naming the offending
code, for every store state whatsoever — so no query is issued. -/
theorem lookups_invalid_code_no_query (d : DB) (code : String)
    (h4 : goLen code ≠ 4) (h6 : goLen code ≠ 6) :
    CNPJ ⟨some d⟩ code = .error (.invalidCode code) ∧
    SelectFIIDetails ⟨some d⟩ code = .error (.invalidCode code) ∧
    Err.message (.invalidCode code) =
      "invalid code \x27" ++ code ++ "\x27" := by
  refine ⟨?_, ?_, rfl⟩ <;> simp [CNPJ, SelectFIIDetails, h4, h6]

/-- C6 witness: a 3-byte code is rejected by both lookups on a populated,
healthy store, with the code quoted in the message. -/
theorem lookups_invalid_code_no_query_witness :
    CNPJ ⟨some ⟨true, [⟨"c", "ABCD", "ABCD11"⟩], none⟩⟩ "ABC" =
      .error (.invalidCode "ABC") ∧
    SelectFIIDetails ⟨some ⟨true, [⟨"c", "ABCD", "ABCD11"⟩], none⟩⟩ "ABC" =
      .error (.invalidCode "ABC") ∧
    Err.message (.invalidCode "ABC") = "invalid code \x27" ++ "ABC" ++ "\x27" :=
  lookups_invalid_code_no_query ⟨true, [⟨"c", "ABCD", "ABCD11"⟩], none⟩ "ABC"
    (by decide) (by decide)

/-- C7: with an unset (nil) handle, `StoreFIIDetails`, `CNPJ` and
`SelectFIIDetails` each return the distinct store-unset error immediately,
leave the store untouched, and (being total functions) do not fault. -/
theorem nil_handle_fails_fast (p : Payload) (code : String) :
    StoreFIIDetails ⟨none⟩ p = (.error .dbUnset, ⟨none⟩) ∧
    CNPJ ⟨none⟩ code = .error .dbUnset ∧
    SelectFIIDetails ⟨none⟩ code = .error .dbUnset :=
  ⟨rfl, rfl, rfl⟩

/-- C10: `StoreFIIDetails` ensures the table before deserialising or
validating, so on a store without the table both a malformed payload and a
payload with an empty trimmed CNPJ make the call fail while still creating
the table as a side effect. -/
theorem storeFIIDetails_creates_table_before_validation
    (d : DB) (cause : String) (p : FIIDetails)
    (htab : d.hasFiiDetails = false)
    (hcnpj : TrimSpace p.detailFund.cnpj = "") :
    (StoreFIIDetails ⟨some d⟩ (.malformed cause)).1 =
      .error (.jsonUnmarshal cause) ∧
    (∃ d₁, (StoreFIIDetails ⟨some d⟩ (.malformed cause)).2.db = some d₁ ∧
      d₁.hasFiiDetails = true) ∧
    (StoreFIIDetails ⟨some d⟩ (.wellFormed p)).1 = .error (.wrongCNPJ "") ∧
    ∃ d₂, (StoreFIIDetails ⟨some d⟩ (.wellFormed p)).2.db = some d₂ ∧
      d₂.hasFiiDetails = true := by
  obtain ⟨ht, rows, flt⟩ := d
  have hht : ht = false := htab
  subst hht
  simp [StoreFIIDetails, hasTable, createTable, trimFIIDetails, hcnpj]

/-- C10 witness: on a fresh store both failing calls create the table. -/
theorem storeFIIDetails_creates_table_before_validation_witness :
    (StoreFIIDetails ⟨some ⟨false, [], none⟩⟩ (.malformed "bad json")).1 =
      .error (.jsonUnmarshal "bad json") ∧
    (∃ d₁, (StoreFIIDetails ⟨some ⟨false, [], none⟩⟩
        (.malformed "bad json")).2.db = some d₁ ∧ d₁.hasFiiDetails = true) ∧
    (StoreFIIDetails ⟨some ⟨false, [], none⟩⟩
        (.wellFormed { detailFund := { cnpj := " " } })).1 =
      .error (.wrongCNPJ "") ∧
    ∃ d₂, (StoreFIIDetails ⟨some ⟨false, [], none⟩⟩
        (.wellFormed { detailFund := { cnpj := " " } })).2.db = some d₂ ∧
      d₂.hasFiiDetails = true :=
  storeFIIDetails_creates_table_before_validation ⟨false, [], none⟩
    "bad json" { detailFund := { cnpj := " " } } rfl (by decide)

/-- C4: for a 4- or 6-byte code, when no stored row matches on either key,
`CNPJ` absorbs the not-found condition and returns the empty string with no
error; any other storage error from the query (a faulted engine) is
propagated to the caller unchanged. -/
theorem cnpj_absorbs_not_found_propagates_faults (code : String)
    (hlen : goLen code = 4 ∨ goLen code = 6) :
    (∀ d : DB, d.fault = none → d.hasFiiDetails = true →
      (∀ r ∈ d.fii_details, r.acronym ≠ code ∧ r.trading_code ≠ code) →
      CNPJ ⟨some d⟩ code = .ok "") ∧
    (∀ (d : DB) (msg : String), d.fault = some msg →
      CNPJ ⟨some d⟩ code = .error (.storage msg)) := by
  constructor
  · intro d hfault htab hnone
    obtain ⟨ht, rows, flt⟩ := d
    have hflt : flt = none := hfault
    have hht : ht = true := htab
    subst hflt
    subst hht
    have hfind4 : rows.find? (fun r => r.acronym = code) = none := by
      rw [List.find?_eq_none]
      intro r hr
      simpa using (hnone r hr).1
    have hfind6 : rows.find? (fun r => r.trading_code = code) = none := by
      rw [List.find?_eq_none]
      intro r hr
      simpa using (hnone r hr).2
    rcases hlen with h | h <;>
      simp [CNPJ, queryRowScan, h, hfind4, hfind6]
  · intro d msg hfault
    obtain ⟨ht, rows, flt⟩ := d
    have hflt : flt = some msg := hfault
    subst hflt
    rcases hlen with h | h <;> simp [CNPJ, queryRowScan, h]

/-- C4 witness: on a populated store an unknown 4-byte code resolves to the
empty string with no error, and a faulted engine propagates its error. -/
theorem cnpj_absorbs_not_found_propagates_faults_witness :
    CNPJ ⟨some ⟨true, [⟨"c", "ABCD", "ABCD11"⟩], none⟩⟩ "ZZZZ" = .ok "" ∧
    CNPJ ⟨some ⟨true, [⟨"c", "ABCD", "ABCD11"⟩], some "disk error"⟩⟩ "ZZZZ" =
      .error (.storage "disk error") :=
  ⟨(cnpj_absorbs_not_found_propagates_faults "ZZZZ" (Or.inl (by decide))).1
      ⟨true, [⟨"c", "ABCD", "ABCD11"⟩], none⟩ rfl rfl (by decide),
   (cnpj_absorbs_not_found_propagates_faults "ZZZZ" (Or.inl (by decide))).2
      ⟨true, [⟨"c", "ABCD", "ABCD11"⟩], some "disk error"⟩ "disk error" rfl⟩

/-- C5: for a 4- or 6-byte code matching no stored row, `SelectFIIDetails`
returns no record and the not-found error (`sql.ErrNoRows`), in contrast to
`CNPJ`'s empty success. -/
theorem selectFIIDetails_not_found_is_error (d : DB) (code : String)
    (hlen : goLen code = 4 ∨ goLen code = 6)
    (hfault : d.fault = none) (htab : d.hasFiiDetails = true)
    (hnone : ∀ r ∈ d.fii_details, r.acronym ≠ code ∧ r.trading_code ≠ code) :
    SelectFIIDetails ⟨some d⟩ code = .error .noRows := by
  obtain ⟨ht, rows, flt⟩ := d
  have hflt : flt = none := hfault
  have hht : ht = true := htab
  subst hflt
  subst hht
  have hfind4 : rows.find? (fun r => r.acronym = code) = none := by
    rw [List.find?_eq_none]
    intro r hr
    simpa using (hnone r hr).1
  have hfind6 : rows.find? (fun r => r.trading_code = code) = none := by
    rw [List.find?_eq_none]
    intro r hr
    simpa using (hnone r hr).2
  rcases hlen with h | h <;>
    simp [SelectFIIDetails, queryRowScan, h, hfind4, hfind6]

/-- C5 witness: an unknown 6-byte trading code yields the not-found error
on a populated store. -/
theorem selectFIIDetails_not_found_is_error_witness :
    SelectFIIDetails ⟨some ⟨true, [⟨"c", "ABCD", "ABCD11"⟩], none⟩⟩ "ZZZZ99" =
      .error .noRows :=
  selectFIIDetails_not_found_is_error ⟨true, [⟨"c", "ABCD", "ABCD11"⟩], none⟩
    "ZZZZ99" (Or.inr (by decide)) rfl rfl (by decide)

/-- C3: after `StoreFIIDetails` succeeds on a fresh table for a payload
whose trimmed fields are CNPJ "12.345.678/0001-90", acronym "ABCD" and
trading code "ABCD11", resolving either "ABCD" or "ABCD11" returns that
CNPJ with no error. -/
theorem cnpj_roundtrip_after_store (p : FIIDetails)
    (h1 : TrimSpace p.detailFund.cnpj = "12.345.678/0001-90")
    (h2 : TrimSpace p.detailFund.acronym = "ABCD")
    (h3 : TrimSpace p.detailFund.tradingCode = "ABCD11") :
    (StoreFIIDetails ⟨some ⟨true, [], none⟩⟩ (.wellFormed p)).1 = .ok () ∧
    CNPJ (StoreFIIDetails ⟨some ⟨true, [], none⟩⟩ (.wellFormed p)).2 "ABCD" =
      .ok "12.345.678/0001-90" ∧
    CNPJ (StoreFIIDetails ⟨some ⟨true, [], none⟩⟩ (.wellFormed p)).2 "ABCD11" =
      .ok "12.345.678/0001-90" := by
  have hcnpj : TrimSpace p.detailFund.cnpj ≠ "" := by
    rw [h1]
    decide
  have hstore : StoreFIIDetails ⟨some ⟨true, [], none⟩⟩ (.wellFormed p) =
      (.ok (), ⟨some ⟨true, [⟨"12.345.678/0001-90", "ABCD", "ABCD11"⟩],
        none⟩⟩) := by
    rw [store_wellFormed_eq _ p rfl hcnpj]
    simp [ensuredRows, insertRows, trimmedRow, h1, h2, h3]
  rw [hstore]
  exact ⟨rfl, by decide, by decide⟩

/-- C3 witness: the round trip at the literal payload of the claim. -/
theorem cnpj_roundtrip_after_store_witness :
    (StoreFIIDetails ⟨some ⟨true, [], none⟩⟩ (.wellFormed pCanon)).1 =
      .ok () ∧
    CNPJ (StoreFIIDetails ⟨some ⟨true, [], none⟩⟩
      (.wellFormed pCanon)).2 "ABCD" = .ok "12.345.678/0001-90" ∧
    CNPJ (StoreFIIDetails ⟨some ⟨true, [], none⟩⟩
      (.wellFormed pCanon)).2 "ABCD11" = .ok "12.345.678/0001-90" :=
  cnpj_roundtrip_after_store pCanon (by decide) (by decide) (by decide)

/-- C8: `StoreFIIDetails` trims all three fields before validation and
storage: the persisted row is the trimmed triple, appended as-is, and the
trimmed CNPJ is retrievable by resolving the trimmed acronym. -/
theorem storeFIIDetails_trims_before_storage (d : DB) (p : FIIDetails)
    (hfault : d.fault = none) (htab : d.hasFiiDetails = true)
    (hcnpj : TrimSpace p.detailFund.cnpj ≠ "")
    (hacr : goLen (TrimSpace p.detailFund.acronym) = 4)
    (hfresh : ∀ r ∈ d.fii_details,
      r.cnpj ≠ TrimSpace p.detailFund.cnpj ∧
      r.acronym ≠ TrimSpace p.detailFund.acronym) :
    (StoreFIIDetails ⟨some d⟩ (.wellFormed p)).1 = .ok () ∧
    (StoreFIIDetails ⟨some d⟩ (.wellFormed p)).2.db =
      some ⟨true, d.fii_details ++ [trimmedRow p], none⟩ ∧
    CNPJ (StoreFIIDetails ⟨some d⟩ (.wellFormed p)).2
        (TrimSpace p.detailFund.acronym) =
      .ok (TrimSpace p.detailFund.cnpj) := by
  obtain ⟨ht, rows, flt⟩ := d
  have hflt : flt = none := hfault
  have hht : ht = true := htab
  subst hflt
  subst hht
  have hE : ensuredRows ⟨true, rows, none⟩ = rows := rfl
  have hnotany : ¬ (rows.any (fun x => x.cnpj = (trimmedRow p).cnpj) = true) := by
    rw [List.any_eq_true]
    rintro ⟨r, hr, hc⟩
    exact (hfresh r hr).1 (by simpa [trimmedRow] using hc)
  have hins : insertRows rows (trimmedRow p) = rows ++ [trimmedRow p] := by
    unfold insertRows
    rw [if_neg hnotany]
  rw [store_wellFormed_eq _ p rfl hcnpj, hE, hins]
  have hfind : rows.find?
      (fun r => r.acronym = TrimSpace p.detailFund.acronym) = none := by
    rw [List.find?_eq_none]
    intro r hr
    simpa using (hfresh r hr).2
  refine ⟨rfl, rfl, ?_⟩
  simp [CNPJ, queryRowScan, hacr, hfind, trimmedRow]

/-- C8 witness: a CNPJ stored with surrounding whitespace is persisted
trimmed and resolved through the trimmed acronym. -/
theorem storeFIIDetails_trims_before_storage_witness :
    (StoreFIIDetails ⟨some ⟨true, [], none⟩⟩ (.wellFormed pPadded)).1 =
      .ok () ∧
    (StoreFIIDetails ⟨some ⟨true, [], none⟩⟩ (.wellFormed pPadded)).2.db =
      some ⟨true, [] ++ [trimmedRow pPadded], none⟩ ∧
    CNPJ (StoreFIIDetails ⟨some ⟨true, [], none⟩⟩ (.wellFormed pPadded)).2
      (TrimSpace " ABCD ") = .ok (TrimSpace " 12.345.678/0001-90 ") :=
  storeFIIDetails_trims_before_storage ⟨true, [], none⟩ pPadded
    rfl rfl (by decide) (by decide) (by decide)

/-- C9: whenever `SelectFIIDetails` succeeds, the returned record is the
partial projection of a stored row matching the code on the key selected by
its length: CNPJ, acronym and trading code come from that row and every
other field keeps its zero value (`mkPartialDetails` sets nothing else). -/
theorem selectFIIDetails_partial_projection (d : DB) (code : String)
    (det : FIIDetails)
    (h : SelectFIIDetails ⟨some d⟩ code = .ok det) :
    ∃ r, r ∈ d.fii_details ∧
      ((goLen code = 4 ∧ r.acronym = code) ∨
       (goLen code = 6 ∧ r.trading_code = code)) ∧
      det = mkPartialDetails r := by
  obtain ⟨ht, rows, flt⟩ := d
  by_cases h4 : goLen code = 4
  · cases flt with
    | some msg => simp [SelectFIIDetails, queryRowScan, h4] at h
    | none =>
      cases ht with
      | false => simp [SelectFIIDetails, queryRowScan, h4] at h
      | true =>
        cases hf : rows.find? (fun r => r.acronym = code) with
        | none => simp [SelectFIIDetails, queryRowScan, h4, hf] at h
        | some r =>
          have hdet : det = mkPartialDetails r := by
            simp [SelectFIIDetails, queryRowScan, h4, hf] at h
            exact h.symm
          exact ⟨r, List.mem_of_find?_eq_some hf,
            Or.inl ⟨h4, by simpa using List.find?_some hf⟩, hdet⟩
  · by_cases h6 : goLen code = 6
    · cases flt with
      | some msg => simp [SelectFIIDetails, queryRowScan, h4, h6] at h
      | none =>
        cases ht with
        | false => simp [SelectFIIDetails, queryRowScan, h4, h6] at h
        | true =>
          cases hf : rows.find? (fun r => r.trading_code = code) with
          | none => simp [SelectFIIDetails, queryRowScan, h4, h6, hf] at h
          | some r =>
            have hdet : det = mkPartialDetails r := by
              simp [SelectFIIDetails, queryRowScan, h4, h6, hf] at h
              exact h.symm
            exact ⟨r, List.mem_of_find?_eq_some hf,
              Or.inr ⟨h6, by simpa using List.find?_some hf⟩, hdet⟩
    · simp [SelectFIIDetails, h4, h6] at h

/-- C9 witness: a concrete successful lookup yields exactly the partial
projection of the stored row. -/
theorem selectFIIDetails_partial_projection_witness :
    ∃ r, r ∈ (⟨true, [⟨"c", "ABCD", "ABCD11"⟩], none⟩ : DB).fii_details ∧
      ((goLen "ABCD" = 4 ∧ r.acronym = "ABCD") ∨
       (goLen "ABCD" = 6 ∧ r.trading_code = "ABCD")) ∧
      mkPartialDetails ⟨"c", "ABCD", "ABCD11"⟩ = mkPartialDetails r :=
  selectFIIDetails_partial_projection ⟨true, [⟨"c", "ABCD", "ABCD11"⟩], none⟩
    "ABCD" (mkPartialDetails ⟨"c", "ABCD", "ABCD11"⟩) (by decide)

/-- C1: storing twice with the same trimmed CNPJ (for any two decodable
payloads carrying it) leaves exactly one stored row for that CNPJ, every
pre-existing row untouched, and the second call returns success. -/
theorem storeFIIDetails_idempotent_by_cnpj (d : DB) (p₁ p₂ : FIIDetails)
    (c : String)
    (hfault : d.fault = none)
    (hwf : d.hasFiiDetails = false → d.fii_details = [])
    (hcount : countCnpj d.fii_details c ≤ 1)
    (hc₁ : TrimSpace p₁.detailFund.cnpj = c)
    (hc₂ : TrimSpace p₂.detailFund.cnpj = c)
    (hne : c ≠ "") :
    (StoreFIIDetails (StoreFIIDetails ⟨some d⟩ (.wellFormed p₁)).2
      (.wellFormed p₂)).1 = .ok () ∧
    ∃ d₂, (StoreFIIDetails (StoreFIIDetails ⟨some d⟩ (.wellFormed p₁)).2
        (.wellFormed p₂)).2.db = some d₂ ∧
      countCnpj d₂.fii_details c = 1 ∧
      ∀ r ∈ d.fii_details, r ∈ d₂.fii_details := by
  have h₁ : TrimSpace p₁.detailFund.cnpj ≠ "" := by
    rw [hc₁]
    exact hne
  have h₂ : TrimSpace p₂.detailFund.cnpj ≠ "" := by
    rw [hc₂]
    exact hne
  have ht₁ : trimmedRow p₁ = ⟨c, TrimSpace p₁.detailFund.acronym,
      TrimSpace p₁.detailFund.tradingCode⟩ := by
    simp [trimmedRow, hc₁]
  have ht₂ : trimmedRow p₂ = ⟨c, TrimSpace p₂.detailFund.acronym,
      TrimSpace p₂.detailFund.tradingCode⟩ := by
    simp [trimmedRow, hc₂]
  have e₁ := store_wellFormed_eq d p₁ hfault h₁
  rw [e₁]
  have e₂ := store_wellFormed_eq
    ⟨true, insertRows (ensuredRows d) (trimmedRow p₁), none⟩ p₂ rfl h₂
  rw [e₂]
  have hE : ensuredRows ⟨true, insertRows (ensuredRows d) (trimmedRow p₁),
      none⟩ = insertRows (ensuredRows d) (trimmedRow p₁) := rfl
  rw [hE, ht₁, ht₂]
  have hsecond : insertRows (insertRows (ensuredRows d)
        ⟨c, TrimSpace p₁.detailFund.acronym,
          TrimSpace p₁.detailFund.tradingCode⟩)
      ⟨c, TrimSpace p₂.detailFund.acronym,
        TrimSpace p₂.detailFund.tradingCode⟩ =
      insertRows (ensuredRows d)
        ⟨c, TrimSpace p₁.detailFund.acronym,
          TrimSpace p₁.detailFund.tradingCode⟩ := by
    apply insertRows_eq_of_any
    exact insertRows_any_self (ensuredRows d)
      ⟨c, TrimSpace p₁.detailFund.acronym,
        TrimSpace p₁.detailFund.tradingCode⟩
  rw [hsecond]
  refine ⟨rfl, _, rfl, ?_, ?_⟩
  · apply countCnpj_insertRows
    by_cases hht : d.hasFiiDetails = true
    · simpa [ensuredRows, hht] using hcount
    · have hff : d.hasFiiDetails = false := by
        revert hht
        cases d.hasFiiDetails <;> simp
      simp [ensuredRows, hff, countCnpj]
  · intro r hr
    apply mem_insertRows
    by_cases hht : d.hasFiiDetails = true
    · simpa [ensuredRows, hht] using hr
    · have hff : d.hasFiiDetails = false := by
        revert hht
        cases d.hasFiiDetails <;> simp
      have h0 : d.fii_details = [] := hwf hff
      rw [h0] at hr
      cases hr

/-- C1 witness: two identical stores of the claim's CNPJ on a fresh table
leave exactly one row and the second call succeeds. -/
theorem storeFIIDetails_idempotent_by_cnpj_witness :
    (StoreFIIDetails (StoreFIIDetails ⟨some ⟨true, [], none⟩⟩
      (.wellFormed pCanon)).2 (.wellFormed pCanon)).1 = .ok () ∧
    ∃ d₂, (StoreFIIDetails (StoreFIIDetails ⟨some ⟨true, [], none⟩⟩
        (.wellFormed pCanon)).2 (.wellFormed pCanon)).2.db = some d₂ ∧
      countCnpj d₂.fii_details "12.345.678/0001-90" = 1 ∧
      ∀ r ∈ (⟨true, [], none⟩ : DB).fii_details, r ∈ d₂.fii_details :=
  storeFIIDetails_idempotent_by_cnpj ⟨true, [], none⟩ pCanon pCanon
    "12.345.678/0001-90" rfl (by decide) (by decide) (by decide) (by decide)
    (by decide)

end Fiidb
